import Mathlib

/-!
A shallow embedding of `src/main.py` (Google Docs Link Checker).

The script fetches a Google Doc as HTML, extracts its anchors, probes every
link with a HEAD request (falling back to GET on 404/405), and partitions the
outcomes into `working` / `broken` / `errors` buckets.

The network is modelled as an oracle: a `Session` records what the shared
`requests.Session` would answer for one URL (the final status code of the
HEAD attempt and of the GET attempt, after redirects, or the exception either
attempt raises).  `check_link` and `check_all_links` are translated from the
source line by line; Python string operations (`in`, slicing, `startswith`)
are modelled on the code-point list `String.data`, matching Python's
code-point semantics for `str`.
-/

/-- Python's slice `s[:n]` on a `str`: the first `n` code points. -/
def strTake (s : String) (n : Nat) : String :=
  (s.data.take n).asString

/-- Python's `c in s` for a single-character `c`: is `c` one of `s`'s code points? -/
def strContains (s : String) (c : Char) : Bool :=
  s.data.contains c

/-- Python's `s.startswith(pre)`: is `pre` an initial segment of `s`? -/
def strStartsWith (s pre : String) : Bool :=
  pre.data.isPrefixOf s.data

/-- The `requests` exceptions distinguished by `check_link` (main.py lines 81-90):
`Timeout`, `SSLError`, `ConnectionError`, `TooManyRedirects`, and the catch-all
`except Exception as e`, which carries the message `str(e)`. -/
inductive ReqException where
  | timeout
  | sslError
  | connectionError
  | tooManyRedirects
  | other (msg : String)
deriving DecidableEq, Repr

/-- The behaviour of `self.session` for one URL: what `session.head` would
return (the final status code, redirects already followed) or raise, and the
same for `session.get`. -/
structure Session where
  headResp : Except ReqException Int
  getResp : Except ReqException Int
deriving Repr

/-- main.py lines 70-77: the status string assigned to a response's status code. -/
def statusString (status_code : Int) : String :=
  if 200 ≤ status_code ∧ status_code < 400 then "✅ OK"
  else if 400 ≤ status_code ∧ status_code < 500 then "❌ BROKEN (Client Error)"
  else if 500 ≤ status_code ∧ status_code < 600 then "⚠️  SERVER ERROR"
  else "⚠️  UNKNOWN (" ++ toString status_code ++ ")"

/-- main.py lines 81-90: the status string returned for each caught exception;
the catch-all truncates `str(e)` to its first 50 code points. -/
def exnStatus : ReqException → String
  | .timeout => "⏱️  TIMEOUT"
  | .sslError => "🔒 SSL ERROR"
  | .connectionError => "❌ CONNECTION FAILED"
  | .tooManyRedirects => "🔄 TOO MANY REDIRECTS"
  | .other msg => "❌ ERROR: " ++ strTake msg 50

/-- The two HTTP request kinds `check_link` can issue. -/
inductive ReqMethod where
  | headReq
  | getReq
deriving DecidableEq, Repr

/-- main.py lines 58-90 (`check_link`), instrumented with the list of HTTP
requests the call issues.  The HEAD request is issued first; if it returns
status 405 or 404 a single GET is issued and its response replaces the HEAD
response; any exception raised by either attempt is caught and mapped to a
`(url, 0, status)` triple by the `except` clauses. -/
def check_link_run (sess : Session) (url : String) : (String × Int × String) × List ReqMethod :=
  match sess.headResp with
  | .error e => ((url, 0, exnStatus e), [.headReq])
  | .ok hc =>
    if hc = 405 ∨ hc = 404 then
      match sess.getResp with
      | .error e => ((url, 0, exnStatus e), [.headReq, .getReq])
      | .ok gc => ((url, gc, statusString gc), [.headReq, .getReq])
    else ((url, hc, statusString hc), [.headReq])

/-- `check_link(url)`: the `(url, status_code, status)` triple the call returns. -/
def check_link (sess : Session) (url : String) : String × Int × String :=
  (check_link_run sess url).1

/-- The HTTP requests one `check_link(url)` call issues. -/
def check_link_requests (sess : Session) (url : String) : List ReqMethod :=
  (check_link_run sess url).2

/-- The result dict built in `check_all_links` (main.py lines 114-119):
`url` and `text` from the submitted pair, `status_code` and `status` from the
completed future's `check_link` value. -/
structure ResultEntry where
  url : String
  text : String
  status_code : Int
  status : String
deriving DecidableEq, Repr

/-- The `results` dict of `check_all_links` (main.py lines 96-100). -/
structure Results where
  working : List ResultEntry
  broken : List ResultEntry
  errors : List ResultEntry
deriving DecidableEq, Repr

/-- The entry appended for one link: `check_link` is called on the link's URL
(`net` gives the session's behaviour for each URL). -/
def resultEntry (net : String → Session) (link : String × String) : ResultEntry :=
  { url := link.1
    text := link.2
    status_code := (check_link (net link.1) link.1).2.1
    status := (check_link (net link.1) link.1).2.2 }

/-- main.py lines 121-130: append one result to its bucket.
`'✅' in status` sends it to `working`; otherwise a status code in
`[400, 600)` sends it to `broken`; everything else lands in `errors`. -/
def categorize (acc : Results) (r : ResultEntry) : Results :=
  if strContains r.status '✅' then { acc with working := acc.working ++ [r] }
  else if 400 ≤ r.status_code ∧ r.status_code < 600 then { acc with broken := acc.broken ++ [r] }
  else { acc with errors := acc.errors ++ [r] }

/-- One iteration of the `as_completed` loop. -/
def processLink (net : String → Session) (acc : Results) (link : String × String) : Results :=
  categorize acc (resultEntry net link)

/-- main.py lines 92-132 (`check_all_links`): every submitted link is processed
exactly once; `links` lists the `(url, text)` pairs in completion order, which
an arbitrary permutation of the input models. -/
def check_all_links (net : String → Session) (links : List (String × String)) : Results :=
  links.foldl (processLink net) ⟨[], [], []⟩

/-- main.py lines 43-56 (`extract_links`): `anchors` are the `(href, text)`
pairs of the document's parsed `a[href]` tags; pairs whose `href` is empty
(falsy) or starts with `'#'` are skipped. -/
def extract_links (anchors : List (String × String)) : List (String × String) :=
  anchors.foldl
    (fun links a => if a.1 ≠ "" ∧ ¬ strStartsWith a.1 "#" then links ++ [a] else links)
    []

/-- The spec's classification enum for probe outcomes (spec section 3). -/
inductive Classification where
  | OK
  | CLIENT_ERROR
  | SERVER_ERROR
  | UNKNOWN_STATUS
  | TIMEOUT
  | TLS_ERROR
  | CONNECTION_FAILED
  | TOO_MANY_REDIRECTS
  | OTHER_ERROR
deriving DecidableEq, Repr

/-- The status-code branches of main.py lines 70-77, read as the enum each
status string stands for. -/
def classifyCode (status_code : Int) : Classification :=
  if 200 ≤ status_code ∧ status_code < 400 then .OK
  else if 400 ≤ status_code ∧ status_code < 500 then .CLIENT_ERROR
  else if 500 ≤ status_code ∧ status_code < 600 then .SERVER_ERROR
  else .UNKNOWN_STATUS

/-- The status string each classification renders to (main.py lines 70-77). -/
def classString (cls : Classification) (status_code : Int) : String :=
  match cls with
  | .OK => "✅ OK"
  | .CLIENT_ERROR => "❌ BROKEN (Client Error)"
  | .SERVER_ERROR => "⚠️  SERVER ERROR"
  | _ => "⚠️  UNKNOWN (" ++ toString status_code ++ ")"

/-- The `except` clauses of main.py lines 81-90, read as the enum each failure
kind stands for. -/
def exnClass : ReqException → Classification
  | .timeout => .TIMEOUT
  | .sslError => .TLS_ERROR
  | .connectionError => .CONNECTION_FAILED
  | .tooManyRedirects => .TOO_MANY_REDIRECTS
  | .other _ => .OTHER_ERROR

/-- The classification and status code of the final outcome of `check_link`
for a session: it mirrors `check_link_run`'s branching. -/
def finalOutcome (sess : Session) : Classification × Int :=
  match sess.headResp with
  | .error e => (exnClass e, 0)
  | .ok hc =>
    if hc = 405 ∨ hc = 404 then
      match sess.getResp with
      | .error e => (exnClass e, 0)
      | .ok gc => (classifyCode gc, gc)
    else (classifyCode hc, hc)

/-- The exception `check_link` catches for a session, when its outcome comes
from an `except` clause rather than a response. -/
def raisedExn (sess : Session) : Option ReqException :=
  match sess.headResp with
  | .error e => some e
  | .ok hc =>
    if hc = 405 ∨ hc = 404 then
      match sess.getResp with
      | .error e => some e
      | .ok _ => none
    else none

/-- Does the truncated catch-all detail `check_link` would report contain the
`'✅'` character?  (Only a caught generic exception can put one there.) -/
def detailHasCheckmark (sess : Session) : Bool :=
  match raisedExn sess with
  | some (.other msg) => strContains (strTake msg 50) '✅'
  | _ => false

/-- The three report buckets. -/
inductive Bucket where
  | workingB
  | brokenB
  | errorsB
deriving DecidableEq, Repr

/-- Which bucket the `if/elif/else` of main.py lines 121-130 appends an entry to. -/
def bucketOf (r : ResultEntry) : Bucket :=
  if strContains r.status '✅' then .workingB
  else if 400 ≤ r.status_code ∧ r.status_code < 600 then .brokenB
  else .errorsB

/-- The aggregation rule as the spec's section 4.3 words it, for comparison
with `bucketOf`: classification `OK` goes to `working`; otherwise a status
code in `[400, 600)` goes to `broken`; everything else goes to `errored`. -/
def specBucket (cls : Classification) (status_code : Int) : Bucket :=
  if cls = .OK then .workingB
  else if 400 ≤ status_code ∧ status_code < 600 then .brokenB
  else .errorsB

/-- Is the entry appended to `working`? -/
def isWorkingEntry (r : ResultEntry) : Bool :=
  strContains r.status '✅'

/-- Is the entry's status code in the `broken` range `[400, 600)`? -/
def inBrokenRange (r : ResultEntry) : Bool :=
  decide (400 ≤ r.status_code ∧ r.status_code < 600)

/-- Is the entry appended to `broken`? -/
def isBrokenEntry (r : ResultEntry) : Bool :=
  !isWorkingEntry r && inBrokenRange r

/-- Is the entry appended to `errors`? -/
def isErrorEntry (r : ResultEntry) : Bool :=
  !isWorkingEntry r && !inBrokenRange r

/-- The `(url, text)` candidate an entry was built from. -/
def entryPair (r : ResultEntry) : String × String :=
  (r.url, r.text)

/-- C10: in every branch of `check_link` — a response obtained with or without
the GET fallback, or an exception caught — the first component of the returned
triple is the input `url`, unchanged. -/
theorem check_link_preserves_url (sess : Session) (url : String) :
    (check_link sess url).1 = url := by
  unfold check_link check_link_run
  cases sess.headResp with
  | error e => rfl
  | ok hc =>
    by_cases h : hc = 405 ∨ hc = 404
    · simp only [h, if_true]
      cases sess.getResp <;> rfl
    · simp [h]

/-- C9: the empty input list yields a report whose three buckets are all
empty, so the total count is 0. -/
theorem check_all_links_empty (net : String → Session) :
    check_all_links net [] = ⟨[], [], []⟩ ∧
      (check_all_links net []).working.length + (check_all_links net []).broken.length +
        (check_all_links net []).errors.length = 0 :=
  ⟨rfl, rfl⟩

/-- C2: the classification of integer status codes is total and exhaustive:
`[200, 400)` is OK, `[400, 500)` CLIENT_ERROR, `[500, 600)` SERVER_ERROR and
every other code UNKNOWN_STATUS; `statusString` renders exactly that
classification. -/
theorem classify_total_exhaustive (c : Int) :
    (classifyCode c = .OK ↔ 200 ≤ c ∧ c < 400) ∧
    (classifyCode c = .CLIENT_ERROR ↔ 400 ≤ c ∧ c < 500) ∧
    (classifyCode c = .SERVER_ERROR ↔ 500 ≤ c ∧ c < 600) ∧
    (classifyCode c = .UNKNOWN_STATUS ↔ (c < 200 ∨ 600 ≤ c)) ∧
    statusString c = classString (classifyCode c) c := by
  unfold classifyCode statusString classString
  by_cases h1 : 200 ≤ c ∧ c < 400 <;>
    by_cases h2 : 400 ≤ c ∧ c < 500 <;>
      by_cases h3 : 500 ≤ c ∧ c < 600 <;>
        refine ⟨?_, ?_, ?_, ?_, ?_⟩ <;> simp [h1, h2, h3] <;> omega

/-- C7: every exception reaching the catch-all branch yields an OTHER_ERROR
outcome whose detail is the fixed text followed by the exception message
truncated to at most 50 characters — on the HEAD attempt and on the GET
fallback alike. -/
theorem other_error_detail_truncated (msg : String) (gres : Except ReqException Int)
    (url : String) :
    check_link ⟨.error (.other msg), gres⟩ url = (url, 0, "❌ ERROR: " ++ strTake msg 50) ∧
    (∀ hc, hc = 404 ∨ hc = 405 →
      check_link ⟨.ok hc, .error (.other msg)⟩ url = (url, 0, "❌ ERROR: " ++ strTake msg 50)) ∧
    (strTake msg 50).length ≤ 50 ∧
    exnClass (.other msg) = .OTHER_ERROR := by
  refine ⟨rfl, ?_, ?_, rfl⟩
  · intro hc hor
    have h : hc = 405 ∨ hc = 404 := hor.symm
    simp [check_link, check_link_run, h, exnStatus]
  · have h : (strTake msg 50).length = (msg.data.take 50).length := rfl
    rw [h, List.length_take]
    exact Nat.min_le_left _ _

/-- C3: the GET fallback is issued exactly when the HEAD attempt returned 404
or 405, at most one GET is ever issued, and when the fallback obtains a
response the final outcome is computed from the GET status code, not from the
HEAD's 404/405. -/
theorem fallback_iff_404_405 (sess : Session) (url : String) :
    (ReqMethod.getReq ∈ check_link_requests sess url ↔
        sess.headResp = .ok 404 ∨ sess.headResp = .ok 405) ∧
    (check_link_requests sess url).count .getReq ≤ 1 ∧
    (∀ hc gc, sess.headResp = .ok hc → hc = 404 ∨ hc = 405 → sess.getResp = .ok gc →
        check_link sess url = (url, gc, statusString gc)) := by
  obtain ⟨hres, gres⟩ := sess
  refine ⟨?_, ?_, ?_⟩
  · cases hres with
    | error e => simp [check_link_requests, check_link_run]
    | ok hc =>
      by_cases h : hc = 405 ∨ hc = 404
      · cases gres <;> simp [check_link_requests, check_link_run, h] <;> omega
      · simp [check_link_requests, check_link_run, h]
        omega
  · cases hres with
    | error e => simp [check_link_requests, check_link_run]
    | ok hc =>
      by_cases h : hc = 405 ∨ hc = 404
      · cases gres <;> simp [check_link_requests, check_link_run, h]
      · simp [check_link_requests, check_link_run, h]
  · intro hc gc hh hor hg
    have h : hc = 405 ∨ hc = 404 := hor.symm
    simp only [Except.ok.injEq] at hh hg ⊢
    subst hh
    subst hg
    simp [check_link, check_link_run, h]

/-- C4: the probe is total over its failure modes: the embedding returns one
triple on every input (it never raises), an exception on the HEAD attempt or
on the GET fallback becomes an outcome with status code 0 and the status text
of its kind, and the classifications are TIMEOUT, TLS_ERROR,
CONNECTION_FAILED, TOO_MANY_REDIRECTS and OTHER_ERROR respectively. -/
theorem check_link_never_raises (sess : Session) (url : String) :
    (∀ e, sess.headResp = .error e → check_link sess url = (url, 0, exnStatus e)) ∧
    (∀ hc e, sess.headResp = .ok hc → hc = 404 ∨ hc = 405 → sess.getResp = .error e →
        check_link sess url = (url, 0, exnStatus e)) ∧
    (∀ e, raisedExn sess = some e → finalOutcome sess = (exnClass e, 0)) ∧
    exnClass .timeout = .TIMEOUT ∧ exnClass .sslError = .TLS_ERROR ∧
    exnClass .connectionError = .CONNECTION_FAILED ∧
    exnClass .tooManyRedirects = .TOO_MANY_REDIRECTS ∧
    (∀ msg, exnClass (.other msg) = .OTHER_ERROR) := by
  obtain ⟨hres, gres⟩ := sess
  refine ⟨?_, ?_, ?_, rfl, rfl, rfl, rfl, fun msg => rfl⟩
  · intro e he
    simp only [Except.error.injEq] at he ⊢
    cases hres with
    | error e2 =>
      cases he
      rfl
    | ok hc => cases he
  · intro hc e hh hor hg
    have h : hc = 405 ∨ hc = 404 := hor.symm
    cases hh
    cases hg
    simp [check_link, check_link_run, h]
  · intro e he
    cases hres with
    | error e2 =>
      simp only [raisedExn, Option.some.injEq] at he
      subst he
      rfl
    | ok hc =>
      by_cases h : hc = 405 ∨ hc = 404
      · cases gres with
        | error e2 =>
          simp only [raisedExn, h, if_true, Option.some.injEq] at he
          subst he
          simp [finalOutcome, h]
        | ok gc => simp [raisedExn, h] at he
      · simp [raisedExn, h] at he

/-- `categorize` appends the entry to the one bucket its predicate selects. -/
theorem categorize_eq (acc : Results) (r : ResultEntry) :
    categorize acc r =
      ⟨acc.working ++ (if isWorkingEntry r then [r] else []),
       acc.broken ++ (if isBrokenEntry r then [r] else []),
       acc.errors ++ (if isErrorEntry r then [r] else [])⟩ := by
  obtain ⟨w, b, er⟩ := acc
  by_cases hw : strContains r.status '✅' = true <;>
    by_cases hr : 400 ≤ r.status_code ∧ r.status_code < 600 <;>
      simp [categorize, isWorkingEntry, isBrokenEntry, isErrorEntry, inBrokenRange, hw, hr]

/-- Folding the `as_completed` loop grows each bucket by the matching filter
of the processed links. -/
theorem foldl_processLink (net : String → Session) (links : List (String × String))
    (acc : Results) :
    links.foldl (processLink net) acc =
      ⟨acc.working ++ (links.map (resultEntry net)).filter isWorkingEntry,
       acc.broken ++ (links.map (resultEntry net)).filter isBrokenEntry,
       acc.errors ++ (links.map (resultEntry net)).filter isErrorEntry⟩ := by
  induction links generalizing acc with
  | nil => simp
  | cons a t ih =>
    rw [List.foldl_cons, ih, processLink, categorize_eq]
    simp only [List.map_cons, List.filter_cons, List.append_assoc]
    by_cases h1 : isWorkingEntry (resultEntry net a) = true <;>
      by_cases h2 : isBrokenEntry (resultEntry net a) = true <;>
        by_cases h3 : isErrorEntry (resultEntry net a) = true <;>
          simp [h1, h2, h3]

/-- The three bucket filters of a list of entries are a permutation of it:
the bucket predicates are mutually exclusive and exhaustive. -/
theorem filter_buckets_perm (l : List ResultEntry) :
    List.Perm (l.filter isWorkingEntry ++ l.filter isBrokenEntry ++ l.filter isErrorEntry) l := by
  induction l with
  | nil => simp
  | cons r t ih =>
    by_cases h1 : isWorkingEntry r = true
    · have h2 : isBrokenEntry r = false := by simp [isBrokenEntry, h1]
      have h3 : isErrorEntry r = false := by simp [isErrorEntry, h1]
      simp only [List.filter_cons, h1, h2, h3, if_true, Bool.false_eq_true, if_false]
      have he : ((r :: t.filter isWorkingEntry) ++ t.filter isBrokenEntry) ++ t.filter isErrorEntry
          = r :: ((t.filter isWorkingEntry ++ t.filter isBrokenEntry) ++ t.filter isErrorEntry) := by
        simp
      rw [he]
      exact ih.cons r
    · by_cases hc : inBrokenRange r = true
      · have h2 : isBrokenEntry r = true := by
          simp only [isBrokenEntry, hc, Bool.and_true, Bool.not_eq_true']
          simp only [Bool.not_eq_true] at h1
          exact h1
        have h3 : isErrorEntry r = false := by simp [isErrorEntry, hc]
        simp only [List.filter_cons, h1, h2, h3, if_true, Bool.false_eq_true, if_false]
        have he : (t.filter isWorkingEntry ++ (r :: t.filter isBrokenEntry)) ++ t.filter isErrorEntry
            = t.filter isWorkingEntry ++ (r :: (t.filter isBrokenEntry ++ t.filter isErrorEntry)) := by
          simp
        rw [he]
        exact List.Perm.trans List.perm_middle
          ((by simpa using ih : List.Perm
            (t.filter isWorkingEntry ++ (t.filter isBrokenEntry ++ t.filter isErrorEntry)) t).cons r)
      · have h2 : isBrokenEntry r = false := by simp [isBrokenEntry, hc]
        have h3 : isErrorEntry r = true := by
          simp only [isErrorEntry, Bool.and_eq_true, Bool.not_eq_true']
          simp only [Bool.not_eq_true] at h1 hc
          exact ⟨h1, hc⟩
        simp only [List.filter_cons, h1, h2, h3, if_true, Bool.false_eq_true, if_false]
        exact List.Perm.trans List.perm_middle (ih.cons r)

/-- C1: `check_all_links` partitions its input completely: the three bucket
sizes sum to the number of input links, and the multiset of `(url, text)`
candidates across the buckets is exactly the input multiset, so each input
candidate sits in exactly one bucket exactly once. -/
theorem check_all_links_partitions (net : String → Session) (links : List (String × String)) :
    ((check_all_links net links).working.length + (check_all_links net links).broken.length +
        (check_all_links net links).errors.length = links.length) ∧
    List.Perm
      (((check_all_links net links).working ++ (check_all_links net links).broken ++
        (check_all_links net links).errors).map entryPair)
      links := by
  have hfold := foldl_processLink net links ⟨[], [], []⟩
  have hperm := filter_buckets_perm (links.map (resultEntry net))
  have hpairs : (links.map (resultEntry net)).map entryPair = links := by
    rw [List.map_map]
    have hid : entryPair ∘ resultEntry net = id := funext fun l => by cases l; rfl
    rw [hid, List.map_id]
  constructor
  · have hlen := hperm.length_eq
    rw [check_all_links, hfold]
    simp only [List.nil_append]
    simp only [List.length_append, List.length_map] at hlen ⊢
    omega
  · rw [check_all_links, hfold]
    simp only [List.nil_append]
    have h2 := hperm.map entryPair
    rw [hpairs] at h2
    exact h2

/-- C6: aggregation is order-independent in bucket contents: two runs over
permuted completion orders give buckets that are permutations of each other. -/
theorem buckets_perm_of_perm (net : String → Session) (l1 l2 : List (String × String))
    (h : List.Perm l1 l2) :
    List.Perm (check_all_links net l1).working (check_all_links net l2).working ∧
    List.Perm (check_all_links net l1).broken (check_all_links net l2).broken ∧
    List.Perm (check_all_links net l1).errors (check_all_links net l2).errors := by
  have hm := h.map (resultEntry net)
  rw [check_all_links, check_all_links, foldl_processLink, foldl_processLink]
  exact ⟨by simpa using hm.filter isWorkingEntry,
    by simpa using hm.filter isBrokenEntry,
    by simpa using hm.filter isErrorEntry⟩

/-- C6 witness: the order-independence theorem applied to a concrete
two-element input and its transposition. -/
theorem buckets_perm_of_perm_witness :
    List.Perm (check_all_links (fun _ => ⟨.ok 200, .ok 200⟩) [("a", "1"), ("b", "2")]).working
      (check_all_links (fun _ => ⟨.ok 200, .ok 200⟩) [("b", "2"), ("a", "1")]).working ∧
    List.Perm (check_all_links (fun _ => ⟨.ok 200, .ok 200⟩) [("a", "1"), ("b", "2")]).broken
      (check_all_links (fun _ => ⟨.ok 200, .ok 200⟩) [("b", "2"), ("a", "1")]).broken ∧
    List.Perm (check_all_links (fun _ => ⟨.ok 200, .ok 200⟩) [("a", "1"), ("b", "2")]).errors
      (check_all_links (fun _ => ⟨.ok 200, .ok 200⟩) [("b", "2"), ("a", "1")]).errors :=
  buckets_perm_of_perm (fun _ => ⟨.ok 200, .ok 200⟩) [("a", "1"), ("b", "2")]
    [("b", "2"), ("a", "1")] (by decide)

/-- The loop of `extract_links` appends exactly the anchors passing its test. -/
theorem extract_links_foldl (anchors : List (String × String)) (acc : List (String × String)) :
    anchors.foldl
        (fun links a => if a.1 ≠ "" ∧ ¬ strStartsWith a.1 "#" then links ++ [a] else links)
        acc =
      acc ++ anchors.filter (fun a => decide (a.1 ≠ "" ∧ ¬ strStartsWith a.1 "#")) := by
  induction anchors generalizing acc with
  | nil => simp
  | cons a t ih =>
    rw [List.foldl_cons, ih]
    by_cases h1 : a.1 = "" <;> by_cases h2 : strStartsWith a.1 "#" = true <;>
      simp [List.filter_cons, h1, h2]

/-- C8: every `(url, text)` pair `extract_links` returns has a non-empty url
that does not start with the character '#'; anchors with an empty or
fragment-only href never reach the result. -/
theorem extract_links_nonempty_nonfragment (anchors : List (String × String))
    (p : String × String) (hp : p ∈ extract_links anchors) :
    p.1 ≠ "" ∧ strStartsWith p.1 "#" = false := by
  unfold extract_links at hp
  rw [extract_links_foldl, List.nil_append, List.mem_filter] at hp
  have h := hp.2
  rw [decide_eq_true_eq] at h
  exact ⟨h.1, by simpa using h.2⟩

/-- C8 witness: the filter theorem applied to a concrete input holding an
empty href, a fragment href, and a real link. -/
theorem extract_links_nonempty_nonfragment_witness :
    (("https://x.example", "t") ∈
        extract_links [("", "a"), ("#frag", "b"), ("https://x.example", "t")]) ∧
    (("https://x.example", "t").1 ≠ "" ∧
        strStartsWith ("https://x.example", "t").1 "#" = false) :=
  ⟨by decide, extract_links_nonempty_nonfragment
    [("", "a"), ("#frag", "b"), ("https://x.example", "t")] ("https://x.example", "t")
    (by decide)⟩

/-- No digit character equals the '✅' mark. -/
theorem digitChar_ne_check (n : Nat) : Nat.digitChar n ≠ '✅' := by
  by_cases hn : n < 16
  · interval_cases n <;> decide
  · intro h
    unfold Nat.digitChar at h
    iterate 16 rw [if_neg (by omega)] at h
    exact absurd h (by decide)

/-- Every character `Nat.toDigitsCore` emits is a digit character or comes
from the accumulator. -/
theorem toDigitsCore_chars (b : Nat) (f : Nat) :
    ∀ (n : Nat) (acc : List Char) (c : Char), c ∈ Nat.toDigitsCore b f n acc →
      c ∈ acc ∨ ∃ k, c = Nat.digitChar k := by
  induction f with
  | zero => exact fun n acc c hc => Or.inl hc
  | succ f ih =>
    intro n acc c hc
    unfold Nat.toDigitsCore at hc
    by_cases h : n / b = 0
    · simp only [h, if_true] at hc
      rcases List.mem_cons.mp hc with h1 | h1
      · exact Or.inr ⟨n % b, h1⟩
      · exact Or.inl h1
    · simp only [h, if_false] at hc
      rcases ih (n / b) (Nat.digitChar (n % b) :: acc) c hc with h1 | h1
      · rcases List.mem_cons.mp h1 with h2 | h2
        · exact Or.inr ⟨n % b, h2⟩
        · exact Or.inl h2
      · exact Or.inr h1

/-- '✅' is not among the characters of a natural number's decimal text. -/
theorem check_not_mem_natRepr (n : Nat) : '✅' ∉ (Nat.repr n).data := by
  intro hmem
  have h : (Nat.repr n).data = Nat.toDigitsCore 10 (n + 1) n [] := rfl
  rw [h] at hmem
  rcases toDigitsCore_chars 10 (n + 1) n [] _ hmem with h1 | ⟨k, hk⟩
  · exact List.not_mem_nil _ h1
  · exact digitChar_ne_check k hk.symm

/-- '✅' is not among the characters `toString` prints for an integer. -/
theorem check_not_mem_intStr (i : Int) : '✅' ∉ (toString i).data := by
  cases i with
  | ofNat m =>
    have h : toString (Int.ofNat m) = Nat.repr m := rfl
    rw [h]
    exact check_not_mem_natRepr m
  | negSucc m =>
    have h : toString (Int.negSucc m) = "-" ++ Nat.repr (m + 1) := rfl
    rw [h]
    intro hmem
    rw [String.data_append] at hmem
    rcases List.mem_append.mp hmem with h1 | h1
    · exact absurd h1 (by decide)
    · exact check_not_mem_natRepr (m + 1) h1

/-- `strContains` through list membership. -/
theorem strContains_eq (s : String) (c : Char) : strContains s c = decide (c ∈ s.data) := by
  simp [strContains, List.contains, List.elem_eq_mem]

/-- `strContains` distributes over string append. -/
theorem strContains_append (a b : String) (c : Char) :
    strContains (a ++ b) c = (strContains a c || strContains b c) := by
  simp [strContains_eq, String.data_append, List.mem_append]

/-- The response status string contains '✅' exactly for the OK range. -/
theorem statusString_contains_check (c : Int) :
    strContains (statusString c) '✅' = decide (200 ≤ c ∧ c < 400) := by
  unfold statusString
  by_cases h1 : 200 ≤ c ∧ c < 400
  · rw [if_pos h1, decide_eq_true h1]
    decide
  · rw [if_neg h1, decide_eq_false h1]
    by_cases h2 : 400 ≤ c ∧ c < 500
    · rw [if_pos h2]
      decide
    · rw [if_neg h2]
      by_cases h3 : 500 ≤ c ∧ c < 600
      · rw [if_pos h3]
        decide
      · rw [if_neg h3, strContains_append, strContains_append]
        have hA : strContains "⚠️  UNKNOWN (" '✅' = false := by decide
        have hB : strContains ")" '✅' = false := by decide
        have hmid : strContains (toString c) '✅' = false := by
          rw [strContains_eq]
          exact decide_eq_false (check_not_mem_intStr c)
        rw [hA, hB, hmid]
        rfl

/-- `bucketOf` written on the entry's fields. -/
theorem bucketOf_fields (u t : String) (sc : Int) (st : String) :
    bucketOf ⟨u, t, sc, st⟩ =
      (if strContains st '✅' then Bucket.workingB
       else if 400 ≤ sc ∧ sc < 600 then Bucket.brokenB else Bucket.errorsB) := rfl

/-- An exception outcome (status code 0) is bucketed by its status text alone. -/
theorem bucketOf_exnStatus (u t : String) (e : ReqException) :
    bucketOf ⟨u, t, 0, exnStatus e⟩ =
      (if strContains (exnStatus e) '✅' then Bucket.workingB else Bucket.errorsB) := by
  rw [bucketOf_fields]
  have h2 : ¬((400 : Int) ≤ 0 ∧ (0 : Int) < 600) := by omega
  rw [if_neg h2]

/-- When the outcome comes from a caught exception, the '✅' test on its status
text is exactly the check-mark test on the truncated catch-all detail. -/
theorem exn_check_eq (sess : Session) (e : ReqException) (h : raisedExn sess = some e) :
    strContains (exnStatus e) '✅' = detailHasCheckmark sess := by
  unfold detailHasCheckmark
  rw [h]
  cases e with
  | timeout => decide
  | sslError => decide
  | connectionError => decide
  | tooManyRedirects => decide
  | other msg =>
    show strContains ("❌ ERROR: " ++ strTake msg 50) '✅' = strContains (strTake msg 50) '✅'
    rw [strContains_append]
    have h1 : strContains "❌ ERROR: " '✅' = false := by decide
    rw [h1, Bool.false_or]

/-- The spec's rule sends every exception outcome to `errored`. -/
theorem specBucket_exn (e : ReqException) : specBucket (exnClass e) 0 = Bucket.errorsB := by
  cases e <;> rfl

/-- For an outcome built from a response code, the code's bucket and the
spec's bucket agree. -/
theorem bucketOf_response (u t : String) (c : Int) :
    bucketOf ⟨u, t, c, statusString c⟩ = specBucket (classifyCode c) c := by
  rw [bucketOf_fields, statusString_contains_check]
  by_cases h1 : 200 ≤ c ∧ c < 400
  · have hOK : classifyCode c = .OK := by
      unfold classifyCode
      rw [if_pos h1]
    rw [decide_eq_true h1, hOK]
    unfold specBucket
    rw [if_pos rfl, if_pos rfl]
  · have hne : classifyCode c ≠ .OK := by
      unfold classifyCode
      rw [if_neg h1]
      by_cases h2 : 400 ≤ c ∧ c < 500
      · rw [if_pos h2]
        exact fun hx => Classification.noConfusion hx
      · rw [if_neg h2]
        by_cases h3 : 500 ≤ c ∧ c < 600
        · rw [if_pos h3]
          exact fun hx => Classification.noConfusion hx
        · rw [if_neg h3]
          exact fun hx => Classification.noConfusion hx
    rw [decide_eq_false h1]
    unfold specBucket
    rw [if_neg hne]
    simp

/-- C5 counterexample: for the session whose HEAD attempt raises a generic
exception with message "boom ✅", the outcome is OTHER_ERROR with status code
0, which the claim sends to `errored`; yet the aggregator's `'✅' in status`
test puts it in `working`, and `check_all_links` leaves `errors` empty. -/
theorem bucket_rule_counterexample :
    finalOutcome ⟨.error (.other "boom ✅"), .ok 200⟩ = (.OTHER_ERROR, 0) ∧
    specBucket Classification.OTHER_ERROR 0 = Bucket.errorsB ∧
    bucketOf (resultEntry (fun _ => ⟨.error (.other "boom ✅"), .ok 200⟩)
      ("https://x.example", "t")) = Bucket.workingB ∧
    (check_all_links (fun _ => ⟨.error (.other "boom ✅"), .ok 200⟩)
      [("https://x.example", "t")]).working.length = 1 ∧
    (check_all_links (fun _ => ⟨.error (.other "boom ✅"), .ok 200⟩)
      [("https://x.example", "t")]).errors = [] := by
  decide

/-- C5 (amended): the aggregator buckets each outcome by the spec's precedence
— OK to `working`, status code in `[400, 600)` to `broken`, the rest to
`errored` — except that a catch-all OTHER_ERROR outcome whose truncated
detail contains the '✅' character lands in `working` instead of `errored`. -/
theorem bucket_rule_amended (sess : Session) (u t : String) :
    bucketOf (resultEntry (fun _ => sess) (u, t)) =
      (if detailHasCheckmark sess then Bucket.workingB
       else specBucket (finalOutcome sess).1 (finalOutcome sess).2) := by
  obtain ⟨hres, gres⟩ := sess
  cases hres with
  | error e =>
    have he : resultEntry (fun _ => (⟨.error e, gres⟩ : Session)) (u, t) =
        ⟨u, t, 0, exnStatus e⟩ := rfl
    have hr : raisedExn ⟨.error e, gres⟩ = some e := rfl
    have hf : finalOutcome ⟨.error e, gres⟩ = (exnClass e, 0) := rfl
    rw [he, bucketOf_exnStatus, exn_check_eq ⟨.error e, gres⟩ e hr, hf, specBucket_exn]
  | ok hc =>
    by_cases h : hc = 405 ∨ hc = 404
    · cases gres with
      | error e =>
        have he : resultEntry (fun _ => (⟨.ok hc, .error e⟩ : Session)) (u, t) =
            ⟨u, t, 0, exnStatus e⟩ := by
          simp [resultEntry, check_link, check_link_run, h]
        have hr : raisedExn ⟨.ok hc, .error e⟩ = some e := by
          simp [raisedExn, h]
        have hf : finalOutcome ⟨.ok hc, .error e⟩ = (exnClass e, 0) := by
          simp [finalOutcome, h]
        rw [he, bucketOf_exnStatus, exn_check_eq ⟨.ok hc, .error e⟩ e hr, hf, specBucket_exn]
      | ok gc =>
        have he : resultEntry (fun _ => (⟨.ok hc, .ok gc⟩ : Session)) (u, t) =
            ⟨u, t, gc, statusString gc⟩ := by
          simp [resultEntry, check_link, check_link_run, h]
        have hd : detailHasCheckmark ⟨.ok hc, .ok gc⟩ = false := by
          simp [detailHasCheckmark, raisedExn, h]
        have hf : finalOutcome ⟨.ok hc, .ok gc⟩ = (classifyCode gc, gc) := by
          simp [finalOutcome, h]
        rw [he, bucketOf_response, hd, hf, if_neg (by simp)]
    · have he : resultEntry (fun _ => (⟨.ok hc, gres⟩ : Session)) (u, t) =
          ⟨u, t, hc, statusString hc⟩ := by
        simp [resultEntry, check_link, check_link_run, h]
      have hd : detailHasCheckmark ⟨.ok hc, gres⟩ = false := by
        simp [detailHasCheckmark, raisedExn, h]
      have hf : finalOutcome ⟨.ok hc, gres⟩ = (classifyCode hc, hc) := by
        simp [finalOutcome, h]
      rw [he, bucketOf_response, hd, hf, if_neg (by simp)]
